import Mathlib

/-!
# Verification of the jetson_phase1 DAQ controller

Shallow embedding of the repository's four Python modules:

* `src/processor.py` — `DataProcessor`: Butterworth filter design
  (`butter_lowpass`, `butter_highpass`, `butter_bandpass`), zero-phase
  application (`apply_filter` via `scipy.signal.filtfilt`), and the
  convenience compositions (`lowpass_filter`, `highpass_filter`,
  `bandpass_filter`).
* `src/mcc_daq.py` — class `DAQ`: device initialisation (`initDAQ`),
  waveform generation (`generate_waveform`), scan start/poll
  (`start_output_thread`, `check_input_thread`, `check_output_thread`)
  and teardown (`close_DAQ`).

The external vendor libraries (`uldaq`, `scipy`, `numpy`) are opaque
collaborators: calls into them are modelled either as records of the call
made (scipy's `butter`/`filtfilt`, whose numerics are outside the
repository) or as a small abstract hardware state (uldaq scan status,
connection and release flags).  Machine floating point is modelled by
exact arithmetic over `ℚ` and `ℝ`.
-/

open Real

/-! ## Filter pipeline (`src/processor.py`)

`scipy.signal.butter(order, Wn, btype, analog)` is an external routine;
its return value is modelled as an opaque pair of coefficient vectors
fully determined by the call's arguments.  What the repository's code
contributes — the Nyquist normalisation and the arguments it passes —
is embedded exactly. -/

/-- The `btype` argument passed to `scipy.signal.butter`. -/
inductive BType
  | low
  | high
  | band
deriving DecidableEq, Repr

/-- The argument tuple of one call to the external `scipy.signal.butter`. -/
structure ButterSpec where
  order : ℕ
  Wn : List ℚ
  btype : BType
  analog : Bool
deriving DecidableEq, Repr

/-- One coefficient vector returned by `scipy.signal.butter`: the
feed-forward vector `b` or the feedback vector `a` of the call `spec`.
The numeric contents are computed by the external library and are opaque
here; a vector is identified by the call that produced it. -/
inductive CoefVec
  | b (spec : ButterSpec)
  | a (spec : ButterSpec)
deriving DecidableEq, Repr

/-- External `scipy.signal.butter`, modelled as the record of its call:
it returns the pair of coefficient vectors `(b, a)` of that call. -/
def scipy_butter (order : ℕ) (Wn : List ℚ) (btype : BType) (analog : Bool) :
    CoefVec × CoefVec :=
  (CoefVec.b ⟨order, Wn, btype, analog⟩, CoefVec.a ⟨order, Wn, btype, analog⟩)

/-- `DataProcessor.butter_lowpass(cutoff, fs, order)`:
`nyquist = 0.5 * fs; normal_cutoff = cutoff / nyquist;
b, a = butter(order, normal_cutoff, btype='low', analog=False)`. -/
def butter_lowpass (cutoff fs : ℚ) (order : ℕ) : CoefVec × CoefVec :=
  let nyquist := 0.5 * fs
  let normal_cutoff := cutoff / nyquist
  scipy_butter order [normal_cutoff] BType.low false

/-- `DataProcessor.butter_highpass(cutoff, fs, order)`: same shape as
`butter_lowpass` with `btype='high'`. -/
def butter_highpass (cutoff fs : ℚ) (order : ℕ) : CoefVec × CoefVec :=
  let nyquist := 0.5 * fs
  let normal_cutoff := cutoff / nyquist
  scipy_butter order [normal_cutoff] BType.high false

/-- `DataProcessor.butter_bandpass(lowcut, highcut, fs, order)`:
`nyquist = 0.5 * fs; low = lowcut / nyquist; high = highcut / nyquist;
b, a = butter(order, [low, high], btype='band', analog=False)`. -/
def butter_bandpass (lowcut highcut fs : ℚ) (order : ℕ) : CoefVec × CoefVec :=
  let nyquist := 0.5 * fs
  let low := lowcut / nyquist
  let high := highcut / nyquist
  scipy_butter order [low, high] BType.band false

/-- The record of one call to the external `scipy.signal.filtfilt`. -/
structure FiltfiltCall where
  b : CoefVec
  a : CoefVec
  x : List ℝ

/-- External `scipy.signal.filtfilt(b, a, x)`, modelled as its call record. -/
def filtfilt (b a : CoefVec) (x : List ℝ) : FiltfiltCall :=
  ⟨b, a, x⟩

/-- `DataProcessor.apply_filter(b, a, buffer_in)`:
`return filtfilt(b, a, buffer_in)`. -/
def apply_filter (b a : CoefVec) (buffer_in : List ℝ) : FiltfiltCall :=
  filtfilt b a buffer_in

/-- `DataProcessor.lowpass_filter(cutoff, buffer_in, fs, order)`:
`b, a = self.butter_lowpass(cutoff, fs, order);
return self.apply_filter(b, a, buffer_in)`. -/
def lowpass_filter (cutoff : ℚ) (buffer_in : List ℝ) (fs : ℚ) (order : ℕ) :
    FiltfiltCall :=
  let ba := butter_lowpass cutoff fs order
  apply_filter ba.1 ba.2 buffer_in

/-- `DataProcessor.highpass_filter(cutoff, buffer_in, fs, order)`. -/
def highpass_filter (cutoff : ℚ) (buffer_in : List ℝ) (fs : ℚ) (order : ℕ) :
    FiltfiltCall :=
  let ba := butter_highpass cutoff fs order
  apply_filter ba.1 ba.2 buffer_in

/-- `DataProcessor.bandpass_filter(lowcut, highcut, buffer_in, fs, order)`. -/
def bandpass_filter (lowcut highcut : ℚ) (buffer_in : List ℝ) (fs : ℚ)
    (order : ℕ) : FiltfiltCall :=
  let ba := butter_bandpass lowcut highcut fs order
  apply_filter ba.1 ba.2 buffer_in

/-! ## Theorems for the filter pipeline -/

/-- C5: for every filter family, cutoff(s), sampling rate and order, the
design functions normalise each cutoff by the Nyquist frequency `fs / 2`
before invoking a digital (`analog = false`) Butterworth design of the
requested order and family over the normalised cutoff(s); band-pass
normalises its two edges independently. -/
theorem butter_design_normalizes_by_nyquist
    (cutoff lowcut highcut fs : ℚ) (order : ℕ) :
    butter_lowpass cutoff fs order =
        scipy_butter order [cutoff / (fs / 2)] BType.low false ∧
      butter_highpass cutoff fs order =
        scipy_butter order [cutoff / (fs / 2)] BType.high false ∧
      butter_bandpass lowcut highcut fs order =
        scipy_butter order [lowcut / (fs / 2), highcut / (fs / 2)]
          BType.band false := by
  have h : (0.5 : ℚ) * fs = fs / 2 := by ring
  refine ⟨?_, ?_, ?_⟩ <;>
    simp only [butter_lowpass, butter_highpass, butter_bandpass, h]

/-- C6: each convenience composition equals its two-step form — design
the coefficients, then apply them to the buffer with `apply_filter`. -/
theorem filter_compositions_eq_two_step
    (cutoff lowcut highcut fs : ℚ) (buffer_in : List ℝ) (order : ℕ) :
    lowpass_filter cutoff buffer_in fs order =
        apply_filter (butter_lowpass cutoff fs order).1
          (butter_lowpass cutoff fs order).2 buffer_in ∧
      highpass_filter cutoff buffer_in fs order =
        apply_filter (butter_highpass cutoff fs order).1
          (butter_highpass cutoff fs order).2 buffer_in ∧
      bandpass_filter lowcut highcut buffer_in fs order =
        apply_filter (butter_bandpass lowcut highcut fs order).1
          (butter_bandpass lowcut highcut fs order).2 buffer_in :=
  ⟨rfl, rfl, rfl⟩

/-! ## DAQ controller (`src/mcc_daq.py`)

The `uldaq` vendor library is the opaque hardware scan service.  Its
observable surface used by the repository is modelled by: a list of
discoverable device descriptors (`get_daq_device_inventory`), per-device
capability flags, a scan-status enumeration, and connection / release
flags on the device handle. -/

/-- `uldaq.ScanStatus` as used by the code: `IDLE` or `RUNNING`. -/
inductive ScanStatus
  | idle
  | running
deriving DecidableEq, Repr, Fintype

/-- Capabilities of one discoverable DAQ device, as observed through the
calls `initDAQ` makes: `get_ai_device()` / `get_ao_device()` may return
`None` (`hasAi` / `hasAo`), the device infos answer `has_pacer()`
(`aiPacer` / `aoPacer`), and after `connect()` the check `is_connected()`
answers `connectsOk`. -/
structure DeviceDesc where
  hasAi : Bool
  hasAo : Bool
  aiPacer : Bool
  aoPacer : Bool
  connectsOk : Bool
deriving DecidableEq, Repr

/-- The `RuntimeError`s raised by `DAQ.initDAQ`, one per raise site:
`noDeviceFound` = "No DAQ devices found",
`ambiguousDevice` = "More than one DAQ device found.",
`noAnalogInput` / `noAnalogOutput` = "does not support analog input/output",
`noInputPacer` / `noOutputPacer` = "does not support ... paced analog ...",
`notConnected` = "The DAQ device is not connected". -/
inductive InitError
  | noDeviceFound
  | ambiguousDevice
  | noAnalogInput
  | noAnalogOutput
  | noInputPacer
  | noOutputPacer
  | notConnected
deriving DecidableEq, Repr

/-- `DAQ.initDAQ` over the inventory returned by
`get_daq_device_inventory(InterfaceType.USB)`.  The code first tests
`len(devices) == 0`, then `len(devices) > 1`, then works on `devices[0]`;
the match below is that same case split.  On success the single device is
the controller's connected device. -/
def initDAQ : List DeviceDesc → Except InitError DeviceDesc
  | [] => .error .noDeviceFound
  | _ :: _ :: _ => .error .ambiguousDevice
  | [d] =>
    if !d.hasAi then .error .noAnalogInput
    else if !d.hasAo then .error .noAnalogOutput
    else if !d.aiPacer then .error .noInputPacer
    else if !d.aoPacer then .error .noOutputPacer
    else if !d.connectsOk then .error .notConnected
    else .ok d

/-- The attribute slots of a `DAQ` instance relevant to teardown and
polling: whether `self.daq_device`, `self.ai_device`, `self.ao_device`
hold an object (`true`) or `None` (`false`), and the `self.status` field
(set to `ScanStatus.IDLE` in `__init__` and never written again). -/
structure DAQState where
  daq_device : Bool
  ai_device : Bool
  ao_device : Bool
  status : ScanStatus
deriving DecidableEq, Repr, Fintype

/-- Abstract state of the hardware device handle as seen through uldaq
calls: the input and output scan statuses, the connection flag and the
released flag.  `scan_stop` moves a running scan to idle, `disconnect`
clears the connection, `release` marks the handle released. -/
structure HWDevice where
  in_status : ScanStatus
  out_status : ScanStatus
  connected : Bool
  released : Bool
deriving DecidableEq, Repr, Fintype

/-- The Python exception produced by calling a method on `None`
(e.g. `self.ai_device.get_scan_status()` when `self.ai_device is None`). -/
inductive PyErr
  | attributeError
deriving DecidableEq, Repr

/-- `DAQ.close_DAQ`.  The code guards only on `if self.daq_device:`;
inside that guard it unconditionally calls
`self.ai_device.get_scan_status()` and `self.ao_device.get_scan_status()`
(an `AttributeError` if either slot is `None`), stops whichever scans are
running, disconnects if `is_connected()`, and releases the handle.
No instance attribute is written, so the `DAQState` is unchanged. -/
def close_DAQ (s : DAQState) (hw : HWDevice) : Except PyErr HWDevice :=
  if s.daq_device then
    if s.ai_device then
      if s.ao_device then
        let hw1 := if hw.in_status = ScanStatus.running then
          { hw with in_status := ScanStatus.idle } else hw
        let hw2 := if hw1.out_status = ScanStatus.running then
          { hw1 with out_status := ScanStatus.idle } else hw1
        let hw3 := if hw2.connected then { hw2 with connected := false } else hw2
        .ok { hw3 with released := true }
      else .error .attributeError
    else .error .attributeError
  else .ok hw

/-- A `uldaq.ULException` reported by the hardware while a scan runs
(e.g. input buffer overrun, output underrun); `get_scan_status()`
surfaces it as a raised exception. -/
inductive ULErr
  | ulException
deriving DecidableEq, Repr

/-- `DAQ.check_input_thread`: returns
`self.ai_device.get_scan_status() == ScanStatus.RUNNING`.  The argument
`getStatus` is what the hardware call returns (or raises); the method
writes no attribute, so the unchanged `DAQState` is returned with the
boolean. -/
def check_input_thread (s : DAQState) (getStatus : Except ULErr ScanStatus) :
    Except ULErr (Bool × DAQState) :=
  match getStatus with
  | .error e => .error e
  | .ok st => .ok (st = ScanStatus.running, s)

/-- `DAQ.check_output_thread`: identical to `check_input_thread` but
against `self.ao_device.get_scan_status()`. -/
def check_output_thread (s : DAQState) (getStatus : Except ULErr ScanStatus) :
    Except ULErr (Bool × DAQState) :=
  match getStatus with
  | .error e => .error e
  | .ok st => .ok (st = ScanStatus.running, s)

/-! ## Waveform generation and the output buffer (`src/mcc_daq.py`) -/

/-- The fields of `self.analog_output_map` used by `generate_waveform`
and `start_output_thread`.  The instance default is
`{channel: 1, sample_rate: 1000.0, samples_per_channel: 10000, ...}`. -/
structure AnalogOutputMap where
  channel : ℕ
  sample_rate : ℚ
  samples_per_channel : ℕ
deriving DecidableEq, Repr

/-- `np.linspace(0, 2*pi, n, endpoint=False)`: the `n` equally spaced
phases `2*π*k/n`, `k = 0, …, n-1`. -/
noncomputable def linspace0TwoPi (n : ℕ) : List ℝ :=
  (List.range n).map fun k : ℕ => 2 * π * (k : ℝ) / (n : ℝ)

/-- The `ValueError("Unsupported waveform type")` raised by
`generate_waveform`'s final branch. -/
inductive WaveError
  | unsupportedWaveform
deriving DecidableEq, Repr

/-- `DAQ.generate_waveform(waveform_type, amplitude, offset)`:
`t = np.linspace(0, 2*pi, samples_per_channel, endpoint=False)`; returns
`amplitude * np.sin(t) + offset` for `"sine"`,
`amplitude * 2 * (t/pi - np.floor(t/pi + 0.5)) + offset` for
`"triangle"`, and raises for any other type.  Pure: reads only
`samples_per_channel` from the output map and writes nothing. -/
noncomputable def generate_waveform (m : AnalogOutputMap)
    (waveform_type : String) (amplitude offset : ℝ) :
    Except WaveError (List ℝ) :=
  let t := linspace0TwoPi m.samples_per_channel
  if waveform_type = "sine" then
    .ok (t.map fun x => amplitude * Real.sin x + offset)
  else if waveform_type = "triangle" then
    .ok (t.map fun x => amplitude * 2 * (x / π - ⌊x / π + 1 / 2⌋) + offset)
  else
    .error .unsupportedWaveform

/-- `uldaq.create_float_buffer(channels, samples)`: a zero-initialised
buffer of `channels * samples` floats; its capacity is its length. -/
def create_float_buffer (channels samples : ℕ) : List ℝ :=
  List.replicate (channels * samples) 0

/-- The `ValueError` numpy raises when `np.copyto` cannot broadcast the
source onto the destination shape. -/
inductive CopyErr
  | shapeMismatch
deriving DecidableEq, Repr

/-- `np.copyto(dst, src)` for one-dimensional arrays: copies `src` over
`dst` when the lengths agree, broadcasts a single element over `dst`,
and otherwise raises.  Returns the destination's new contents. -/
def np_copyto (dst src : List ℝ) : Except CopyErr (List ℝ) :=
  if src.length = dst.length then .ok src
  else
    match src with
    | [x] => .ok (List.replicate dst.length x)
    | _ => .error .shapeMismatch

/-- `DAQ.start_output_thread(waveform)`: creates
`self.buffer_out = create_float_buffer(1, samples_per_channel)`, copies
the (flattened) waveform into it with `np.copyto`, and hands the buffer
to `ao_device.a_out_scan`.  The result is the contents of the output
buffer handed to the hardware. -/
def start_output_thread (m : AnalogOutputMap) (waveform : List ℝ) :
    Except CopyErr (List ℝ) :=
  let buffer_out := create_float_buffer 1 m.samples_per_channel
  np_copyto buffer_out waveform

/-! ## Theorems for initialisation, teardown and polling -/

/-- C3: `initDAQ` fails `noDeviceFound` exactly on an empty inventory,
`ambiguousDevice` exactly when more than one device is discoverable,
with a missing-pacer error when the single device (having both analog
subsystems) lacks a hardware pacer for a direction, with the
not-connected error when the post-connect check fails, and succeeds on
exactly one pacer-capable, connectable device. -/
theorem initDAQ_error_classification (devs : List DeviceDesc) :
    (initDAQ devs = .error .noDeviceFound ↔ devs = []) ∧
      (initDAQ devs = .error .ambiguousDevice ↔ 2 ≤ devs.length) ∧
      (∀ d, devs = [d] → d.hasAi = true → d.hasAo = true →
        ¬(d.aiPacer = true ∧ d.aoPacer = true) →
        initDAQ devs = .error .noInputPacer ∨
          initDAQ devs = .error .noOutputPacer) ∧
      (∀ d, devs = [d] → d.hasAi = true → d.hasAo = true →
        d.aiPacer = true → d.aoPacer = true → d.connectsOk = false →
        initDAQ devs = .error .notConnected) ∧
      (∀ d, devs = [d] → d.hasAi = true → d.hasAo = true →
        d.aiPacer = true → d.aoPacer = true → d.connectsOk = true →
        initDAQ devs = .ok d) := by
  rcases devs with _ | ⟨d, _ | ⟨e, t⟩⟩
  · refine ⟨by simp [initDAQ], by simp [initDAQ], ?_, ?_, ?_⟩ <;>
      intro d h <;> simp_all
  · rcases d with ⟨hai, hao, aip, aop, con⟩
    refine ⟨?_, ?_, ?_, ?_, ?_⟩
    · constructor
      · intro h
        cases hai <;> cases hao <;> cases aip <;> cases aop <;> cases con <;>
          simp [initDAQ] at h
      · intro h
        simp at h
    · constructor
      · intro h
        cases hai <;> cases hao <;> cases aip <;> cases aop <;> cases con <;>
          simp [initDAQ] at h
      · intro h
        simp at h
    · rintro d' h
      obtain rfl : d' = ⟨hai, hao, aip, aop, con⟩ := by
        simpa using h.symm
      intro h1 h2 h3
      simp only at h1 h2
      subst h1
      subst h2
      cases haip : aip
      · left
        simp [initDAQ, haip]
      · right
        rcases Bool.eq_false_iff.mpr (fun haop => h3 ⟨haip, haop⟩) with h4
        simp only at h4
        simp [initDAQ, haip, h4]
    · rintro d' h
      obtain rfl : d' = ⟨hai, hao, aip, aop, con⟩ := by
        simpa using h.symm
      intro h1 h2 h3 h4 h5
      simp only at h1 h2 h3 h4 h5
      subst h1; subst h2; subst h3; subst h4; subst h5
      simp [initDAQ]
    · rintro d' h
      obtain rfl : d' = ⟨hai, hao, aip, aop, con⟩ := by
        simpa using h.symm
      intro h1 h2 h3 h4 h5
      simp only at h1 h2 h3 h4 h5
      subst h1; subst h2; subst h3; subst h4; subst h5
      simp [initDAQ]
  · refine ⟨?_, ?_, ?_, ?_, ?_⟩
    · simp [initDAQ]
    · simp [initDAQ]
    · intro d' h
      simp at h
    · intro d' h
      simp at h
    · intro d' h
      simp at h

/-- C3 witness: one fully capable, connectable device initialises
successfully, and an empty inventory fails with the no-device error. -/
theorem initDAQ_error_classification_witness :
    initDAQ [⟨true, true, true, true, true⟩] =
        .ok ⟨true, true, true, true, true⟩ ∧
      initDAQ ([] : List DeviceDesc) = .error .noDeviceFound :=
  ⟨(initDAQ_error_classification [⟨true, true, true, true, true⟩]).2.2.2.2
      ⟨true, true, true, true, true⟩ rfl rfl rfl rfl rfl rfl,
    (initDAQ_error_classification []).1.2 rfl⟩

deriving instance DecidableEq for Except

/-- C1 counterexample: from the controller state left behind by an
`initDAQ` that failed at the analog-input lookup — `self.daq_device`
set, `self.ai_device = None` — `close_DAQ` raises an `AttributeError`
(it calls `get_scan_status()` on `None`), because its only validity
guard is `if self.daq_device:`.  So `close_DAQ` is not callable without
raising from every state and does not check each resource before acting
on it. -/
theorem close_DAQ_raises_after_partial_init :
    close_DAQ ⟨true, false, true, ScanStatus.idle⟩
        ⟨ScanStatus.idle, ScanStatus.idle, false, false⟩ =
      .error .attributeError := rfl

/-- C1 (amended): `close_DAQ` completes without raising and is
idempotent from every state in which `daq_device` is `None` or in which
both `ai_device` and `ao_device` are set — this covers the fully
connected state, the state after a successful `close_DAQ` (which clears
no attribute), and every `initDAQ` failure at the inventory, pacer or
connect stages; a second call after a successful one is a no-op on the
hardware state.  (From a state with `daq_device` set but `ai_device` or
`ao_device` `None`, it raises; see the counterexample.) -/
theorem close_DAQ_safe_on_complete_states :
    ∀ (s : DAQState) (hw : HWDevice),
      s.daq_device = false ∨ (s.ai_device = true ∧ s.ao_device = true) →
      (∃ hw', close_DAQ s hw = .ok hw') ∧
        ∀ hw', close_DAQ s hw = .ok hw' → close_DAQ s hw' = .ok hw' := by
  decide

/-- C1 witness: the fully connected state with both scans running tears
down without raising, and tearing down twice succeeds. -/
theorem close_DAQ_safe_on_complete_states_witness :
    (∃ hw', close_DAQ ⟨true, true, true, ScanStatus.idle⟩
        ⟨ScanStatus.running, ScanStatus.running, true, false⟩ = .ok hw') ∧
      ∀ hw', close_DAQ ⟨true, true, true, ScanStatus.idle⟩
          ⟨ScanStatus.running, ScanStatus.running, true, false⟩ = .ok hw' →
        close_DAQ ⟨true, true, true, ScanStatus.idle⟩ hw' = .ok hw' :=
  close_DAQ_safe_on_complete_states ⟨true, true, true, ScanStatus.idle⟩
    ⟨ScanStatus.running, ScanStatus.running, true, false⟩ (by decide)

/-- C9 counterexample: when the hardware reports an error condition
(a `ULException` out of `get_scan_status()`), the poll propagates the
exception to the caller instead of completing, and no state transition
of any kind occurs — the code has no `Faulted` state and never writes
its `status` field, as the third conjunct shows for a successful poll:
the controller state comes back exactly unchanged. -/
theorem check_threads_no_fault_transition :
    check_input_thread ⟨true, true, true, ScanStatus.idle⟩
        (.error .ulException) = .error .ulException ∧
      check_output_thread ⟨true, true, true, ScanStatus.idle⟩
        (.error .ulException) = .error .ulException ∧
      check_input_thread ⟨true, true, true, ScanStatus.idle⟩
        (.ok ScanStatus.running) =
        .ok (true, ⟨true, true, true, ScanStatus.idle⟩) :=
  ⟨rfl, rfl, rfl⟩

/-- C9 (amended): each poll is a pure status check — it returns `true`
exactly when the hardware reports `RUNNING`, returns the controller
state unchanged (no transition; the code keeps no `Faulted` state and
never updates its `status` field), and when the hardware reports an
error condition the exception propagates to the caller. -/
theorem check_threads_report_status (s : DAQState) (st : ScanStatus)
    (e : ULErr) :
    check_input_thread s (.ok st) = .ok (st = ScanStatus.running, s) ∧
      check_output_thread s (.ok st) = .ok (st = ScanStatus.running, s) ∧
      check_input_thread s (.error e) = .error e ∧
      check_output_thread s (.error e) = .error e :=
  ⟨rfl, rfl, rfl, rfl⟩

/-- C8: any waveform type other than `"sine"` and `"triangle"` makes
`generate_waveform` raise the unsupported-waveform error: no output
list is produced, and the function (which writes no attribute) changes
no state; there is no default fallback shape. -/
theorem generate_waveform_unsupported (m : AnalogOutputMap)
    (shape : String) (A offset : ℝ)
    (h1 : shape ≠ "sine") (h2 : shape ≠ "triangle") :
    generate_waveform m shape A offset = .error .unsupportedWaveform := by
  simp [generate_waveform, h1, h2]

/-- C8 witness: the unsupported shape `"quadrature"` from the spec's
test catalogue fails with the unsupported-waveform error. -/
theorem generate_waveform_unsupported_witness :
    generate_waveform ⟨1, 1000, 10000⟩ "quadrature" 1 0 =
      .error .unsupportedWaveform :=
  generate_waveform_unsupported ⟨1, 1000, 10000⟩ "quadrature" 1 0
    (by decide) (by decide)

/-- C10: for each supported shape the generated waveform has exactly
`samples_per_channel` samples, which is also the capacity of the buffer
`create_float_buffer(1, samples_per_channel)` made by
`start_output_thread`; copying the waveform into that buffer therefore
fills it exactly — the buffer handed to the hardware is the whole
waveform, with no truncation and no unwritten tail. -/
theorem generate_fills_output_buffer (m : AnalogOutputMap) (shape : String)
    (A offset : ℝ) (h : shape = "sine" ∨ shape = "triangle") :
    ∃ w, generate_waveform m shape A offset = .ok w ∧
      w.length = m.samples_per_channel ∧
      (create_float_buffer 1 m.samples_per_channel).length =
        m.samples_per_channel ∧
      start_output_thread m w = .ok w := by
  have hbuf : (create_float_buffer 1 m.samples_per_channel).length =
      m.samples_per_channel := by
    rw [create_float_buffer, List.length_replicate, one_mul]
  have hlin : (linspace0TwoPi m.samples_per_channel).length =
      m.samples_per_channel := by
    rw [linspace0TwoPi, List.length_map, List.length_range]
  rcases h with rfl | rfl
  · refine ⟨(linspace0TwoPi m.samples_per_channel).map
        fun x => A * Real.sin x + offset, by simp [generate_waveform],
      ?_, hbuf, ?_⟩
    · rw [List.length_map, hlin]
    · have hw : ((linspace0TwoPi m.samples_per_channel).map
          fun x => A * Real.sin x + offset).length =
          (create_float_buffer 1 m.samples_per_channel).length := by
        rw [List.length_map, hlin, hbuf]
      simp only [start_output_thread, np_copyto]
      rw [if_pos hw]
  · refine ⟨(linspace0TwoPi m.samples_per_channel).map
        fun x => A * 2 * (x / π - ⌊x / π + 1 / 2⌋) + offset,
      by simp [generate_waveform], ?_, hbuf, ?_⟩
    · rw [List.length_map, hlin]
    · have hw : ((linspace0TwoPi m.samples_per_channel).map
          fun x => A * 2 * (x / π - ⌊x / π + 1 / 2⌋) + offset).length =
          (create_float_buffer 1 m.samples_per_channel).length := by
        rw [List.length_map, hlin, hbuf]
      simp only [start_output_thread, np_copyto]
      rw [if_pos hw]

/-- C10 witness: with the instance's output configuration (10000 samples
per channel) a sine waveform fills the output buffer exactly. -/
theorem generate_fills_output_buffer_witness :
    ∃ w, generate_waveform ⟨1, 1000, 10000⟩ "sine" 1 0 = .ok w ∧
      w.length = 10000 ∧
      (create_float_buffer 1 10000).length = 10000 ∧
      start_output_thread ⟨1, 1000, 10000⟩ w = .ok w :=
  generate_fills_output_buffer ⟨1, 1000, 10000⟩ "sine" 1 0 (Or.inl rfl)

/-! ## The "triangle" branch in exact arithmetic

At the sampled phases `x = 2*π*k/n` the `π` cancels out of the code's
formula `amplitude * 2 * (x/π - floor(x/π + 0.5)) + offset`, so each
sample is `amplitude` times an exactly rational value plus `offset`. -/

/-- The rational factor of the `k`-th "triangle" sample for buffer
length `n`: `2 * (2*k/n - ⌊2*k/n + 1/2⌋)`. -/
def triSampleQ (n k : ℕ) : ℚ :=
  2 * ((2 * k : ℚ) / (n : ℚ) - ⌊(2 * k : ℚ) / (n : ℚ) + 1 / 2⌋)

/-- The code's triangle formula at phase `2*π*k/n` equals
`A * triSampleQ n k + offset`. -/
theorem triangle_sample_eq_ratCast (n k : ℕ) (A offset : ℝ) :
    A * 2 * (2 * π * (k : ℝ) / (n : ℝ) / π -
        ⌊2 * π * (k : ℝ) / (n : ℝ) / π + 1 / 2⌋) + offset =
      A * ((triSampleQ n k : ℚ) : ℝ) + offset := by
  have hx : 2 * π * (k : ℝ) / (n : ℝ) / π = 2 * (k : ℝ) / (n : ℝ) := by
    rw [div_div, mul_right_comm, mul_div_mul_right _ _ Real.pi_ne_zero]
  have hq : 2 * (k : ℝ) / (n : ℝ) = (((2 * k : ℚ) / (n : ℚ) : ℚ) : ℝ) := by
    push_cast
    ring
  have hfl : ⌊(((2 * k : ℚ) / (n : ℚ) : ℚ) : ℝ) + 1 / 2⌋ =
      ⌊(2 * k : ℚ) / (n : ℚ) + 1 / 2⌋ := by
    rw [show (1 : ℝ) / 2 = (((1 : ℚ) / 2 : ℚ) : ℝ) by norm_num,
      ← Rat.cast_add, Rat.floor_cast]
  rw [hx, hq, hfl, triSampleQ]
  push_cast
  ring

/-- `generate_waveform`'s triangle output, rewritten sample-by-sample
into its exact rational form. -/
theorem triangle_map_eq (m : AnalogOutputMap) (A offset : ℝ) :
    generate_waveform m "triangle" A offset =
      .ok ((List.range m.samples_per_channel).map
        fun k : ℕ =>
          A * ((triSampleQ m.samples_per_channel k : ℚ) : ℝ) + offset) := by
  have hgen : generate_waveform m "triangle" A offset =
      .ok ((linspace0TwoPi m.samples_per_channel).map
        fun x => A * 2 * (x / π - ⌊x / π + 1 / 2⌋) + offset) := by
    simp [generate_waveform]
  rw [hgen, linspace0TwoPi, List.map_map]
  refine congrArg Except.ok (List.map_congr_left fun k _ => ?_)
  simp only [Function.comp]
  exact triangle_sample_eq_ratCast m.samples_per_channel k A offset

/-- `triSampleQ` never reaches `1`: strictness of the sawtooth peak. -/
theorem triSampleQ_lt_one (n k : ℕ) : triSampleQ n k < 1 := by
  have h := Int.lt_floor_add_one ((2 * k : ℚ) / (n : ℚ) + 1 / 2)
  rw [triSampleQ]
  linarith

/-- `triSampleQ` never drops below `-1`. -/
theorem neg_one_le_triSampleQ (n k : ℕ) : -1 ≤ triSampleQ n k := by
  have h := Int.floor_le ((2 * k : ℚ) / (n : ℚ) + 1 / 2)
  rw [triSampleQ]
  linarith

/-- At `k = n/4` (for `n = 4*mq`) the sample hits the trough `-1`. -/
theorem triSampleQ_quarter (mq : ℕ) (h : 0 < mq) :
    triSampleQ (4 * mq) mq = -1 := by
  have hm : ((mq : ℚ)) ≠ 0 := Nat.cast_ne_zero.mpr h.ne'
  have hx : (2 * mq : ℚ) / ((4 * mq : ℕ) : ℚ) = 1 / 2 := by
    push_cast
    field_simp
    ring
  rw [triSampleQ, hx]
  norm_num

/-- The sample pattern repeats after half the buffer: the code's
"triangle" has fundamental period `π`, not `2π`. -/
theorem triSampleQ_period (n k : ℕ) (h : 2 ∣ n) :
    triSampleQ n (k + n / 2) = triSampleQ n k := by
  obtain ⟨mh, rfl⟩ := h
  rcases Nat.eq_zero_or_pos mh with rfl | hm
  · norm_num
  · have hm' : ((mh : ℚ)) ≠ 0 := Nat.cast_ne_zero.mpr hm.ne'
    have hhalf : 2 * mh / 2 = mh := by omega
    rw [triSampleQ, triSampleQ, hhalf]
    have hx : (2 * ((k + mh : ℕ) : ℚ)) / ((2 * mh : ℕ) : ℚ) =
        (2 * (k : ℕ) : ℚ) / ((2 * mh : ℕ) : ℚ) + 1 := by
      push_cast
      field_simp
      ring
    push_cast at hx ⊢
    rw [hx, show (2 * (k : ℚ)) / (2 * (mh : ℚ)) + 1 + 1 / 2 =
        (2 * (k : ℚ)) / (2 * (mh : ℚ)) + 1 / 2 + 1 by ring,
      Int.floor_add_one]
    push_cast
    ring

/-- The complete "triangle" output for amplitude 1, offset 0, 8 samples
per channel — one 2π buffer. -/
noncomputable def tri8list : List ℝ :=
  [0, 1 / 2, -1, -1 / 2, 0, 1 / 2, -1, -1 / 2]

/-- Evaluation rule for one rational triangle sample: supply the floor
value `z` of `2*k/n + 1/2` with its two bounding inequalities. -/
theorem triSampleQ_eval (n k : ℕ) (z : ℤ) (v : ℚ)
    (h1 : (z : ℚ) ≤ (2 * k : ℚ) / (n : ℚ) + 1 / 2)
    (h2 : (2 * k : ℚ) / (n : ℚ) + 1 / 2 < z + 1)
    (h3 : 2 * ((2 * k : ℚ) / (n : ℚ) - z) = v) :
    triSampleQ n k = v := by
  rw [triSampleQ, Int.floor_eq_iff.mpr ⟨h1, h2⟩, h3]

/-- Evaluation of `generate_waveform` at amplitude 1, offset 0 and a
buffer of 8 samples. -/
theorem tri8_eval :
    generate_waveform ⟨1, 1000, 8⟩ "triangle" 1 0 = .ok tri8list := by
  rw [triangle_map_eq]
  have h8 : (AnalogOutputMap.mk 1 1000 8).samples_per_channel = 8 := rfl
  rw [h8, show List.range 8 = [0, 1, 2, 3, 4, 5, 6, 7] from by decide]
  have e0 : triSampleQ 8 0 = 0 :=
    triSampleQ_eval 8 0 0 0 (by norm_num) (by norm_num) (by norm_num)
  have e1 : triSampleQ 8 1 = 1 / 2 :=
    triSampleQ_eval 8 1 0 (1 / 2) (by norm_num) (by norm_num) (by norm_num)
  have e2 : triSampleQ 8 2 = -1 :=
    triSampleQ_eval 8 2 1 (-1) (by norm_num) (by norm_num) (by norm_num)
  have e3 : triSampleQ 8 3 = -1 / 2 :=
    triSampleQ_eval 8 3 1 (-1 / 2) (by norm_num) (by norm_num) (by norm_num)
  have e4 : triSampleQ 8 4 = 0 :=
    triSampleQ_eval 8 4 1 0 (by norm_num) (by norm_num) (by norm_num)
  have e5 : triSampleQ 8 5 = 1 / 2 :=
    triSampleQ_eval 8 5 1 (1 / 2) (by norm_num) (by norm_num) (by norm_num)
  have e6 : triSampleQ 8 6 = -1 :=
    triSampleQ_eval 8 6 2 (-1) (by norm_num) (by norm_num) (by norm_num)
  have e7 : triSampleQ 8 7 = -1 / 2 :=
    triSampleQ_eval 8 7 2 (-1 / 2) (by norm_num) (by norm_num) (by norm_num)
  simp only [List.map_cons, List.map_nil, e0, e1, e2, e3, e4, e5, e6, e7,
    tri8list]
  norm_num

/-- C2 counterexample: with amplitude `A = 1`, offset `0` and 8 samples,
the "triangle" output is `[0, 1/2, -1, -1/2, 0, 1/2, -1, -1/2]` and the
claimed peak `A + offset = 1` is attained by NO sample — the formula
`2*(t/π - floor(t/π + 0.5))` is a centred sawtooth whose supremum is
approached but never reached.  The listed values also exhibit two rising
runs and two falls inside the single 2π buffer (not one rising and one
falling segment), repeating with period π. -/
theorem triangle_peak_not_attained :
    generate_waveform ⟨1, 1000, 8⟩ "triangle" 1 0 = .ok tri8list ∧
      ((1 : ℝ) + 0) ∉ tri8list := by
  refine ⟨tri8_eval, ?_⟩
  rw [tri8list]
  norm_num

/-- C2 (amended): for every amplitude `A > 0`, offset and buffer length,
the "triangle" output of `generate_waveform` is a piecewise-linear
sawtooth whose samples all satisfy
`-A + offset ≤ sample < A + offset`: the trough `-A + offset` is
attained (at index `n/4` when `4 ∣ n`), while the claimed peak
`A + offset` is a strict upper bound never attained by any sample; and
the sample pattern repeats after half the buffer, i.e. with period `π`
rather than `2π`. -/
theorem triangle_wave_properties (m : AnalogOutputMap) (A offset : ℝ)
    (hA : 0 < A) (l : List ℝ)
    (hl : generate_waveform m "triangle" A offset = .ok l) :
    (∀ y ∈ l, -A + offset ≤ y ∧ y < A + offset) ∧
      (∀ mq : ℕ, 0 < mq → m.samples_per_channel = 4 * mq →
        l[mq]? = some (-A + offset)) ∧
      (2 ∣ m.samples_per_channel →
        ∀ k : ℕ, k + m.samples_per_channel / 2 < m.samples_per_channel →
          l[k + m.samples_per_channel / 2]? = l[k]?) := by
  rw [triangle_map_eq] at hl
  obtain rfl : l = (List.range m.samples_per_channel).map
      fun k : ℕ =>
        A * ((triSampleQ m.samples_per_channel k : ℚ) : ℝ) + offset :=
    (Except.ok.injEq _ _).mp hl.symm
  refine ⟨?_, ?_, ?_⟩
  · intro y hy
    obtain ⟨k, _, rfl⟩ := List.mem_map.1 hy
    have h1 : ((triSampleQ m.samples_per_channel k : ℚ) : ℝ) < 1 := by
      exact_mod_cast triSampleQ_lt_one m.samples_per_channel k
    have h2 : (-1 : ℝ) ≤ ((triSampleQ m.samples_per_channel k : ℚ) : ℝ) := by
      exact_mod_cast neg_one_le_triSampleQ m.samples_per_channel k
    constructor
    · nlinarith
    · nlinarith
  · intro mq hmq heq
    rw [List.getElem?_map, heq,
      List.getElem?_range (by omega : mq < 4 * mq), Option.map_some',
      triSampleQ_quarter mq hmq]
    norm_num
  · intro h2 k hk
    have hk' : k < m.samples_per_channel := by omega
    rw [List.getElem?_map, List.getElem?_map,
      List.getElem?_range hk, List.getElem?_range hk',
      Option.map_some', Option.map_some',
      triSampleQ_period m.samples_per_channel k h2]

/-- C2 witness: for the 8-sample buffer (divisible by 4) the trough
sample at index 2 equals `-A + offset = -1 + 0`. -/
theorem triangle_wave_properties_witness :
    tri8list[2]? = some (-(1 : ℝ) + 0) :=
  (triangle_wave_properties ⟨1, 1000, 8⟩ 1 0 one_pos tri8list
      tri8_eval).2.1 2 (by norm_num) rfl

/-! ## The "sine" branch -/

/-- `generate_waveform`'s sine output, sample-by-sample:
sample `k` is `A * sin(2*π*k/n) + offset`. -/
theorem sine_map_eq (m : AnalogOutputMap) (A offset : ℝ) :
    generate_waveform m "sine" A offset =
      .ok ((List.range m.samples_per_channel).map
        fun k : ℕ => A * Real.sin (2 * π * (k : ℝ) /
          (m.samples_per_channel : ℝ)) + offset) := by
  simp [generate_waveform, linspace0TwoPi, List.map_map, Function.comp]

/-- Sum of a function mapped over `List.range` as a `Finset` sum. -/
theorem list_map_range_sum (f : ℕ → ℝ) (n : ℕ) :
    ((List.range n).map f).sum = ∑ k ∈ Finset.range n, f k := by
  induction n with
  | zero => simp
  | succ n ih =>
      rw [List.range_succ, List.map_append, List.sum_append,
        Finset.sum_range_succ, ih]
      simp

/-- The sampled sines over one full cycle cancel pairwise
(`k ↔ n - k`), so their sum is zero. -/
theorem sum_sin_sampled (n : ℕ) :
    ∑ k ∈ Finset.range n, Real.sin (2 * π * (k : ℝ) / (n : ℝ)) = 0 := by
  rcases Nat.eq_zero_or_pos n with rfl | hn
  · simp
  · refine Finset.sum_involution (fun k _ => (n - k) % n) ?_ ?_ ?_ ?_
    · intro a ha
      rcases Nat.eq_zero_or_pos a with rfl | hpos
      · simp [Nat.mod_self]
      · have haln : a < n := Finset.mem_range.1 ha
        have h1 : (n - a) % n = n - a := Nat.mod_eq_of_lt (by omega)
        simp only [h1]
        have hc : ((n - a : ℕ) : ℝ) = (n : ℝ) - (a : ℝ) := by
          push_cast [Nat.cast_sub haln.le]
          ring
        rw [hc]
        have hn0 : ((n : ℝ)) ≠ 0 := Nat.cast_ne_zero.mpr hn.ne'
        have harg : 2 * π * ((n : ℝ) - (a : ℝ)) / (n : ℝ) =
            2 * π - 2 * π * (a : ℝ) / (n : ℝ) := by
          field_simp
          ring
        rw [harg, Real.sin_two_pi_sub]
        ring
    · intro a ha hfa hga
      apply hfa
      rcases Nat.eq_zero_or_pos a with rfl | hpos
      · simp
      · have haln : a < n := Finset.mem_range.1 ha
        have hga2 : (n - a) % n = a := hga
        have h1 : (n - a) % n = n - a := Nat.mod_eq_of_lt (by omega)
        have h3 : n - a = a := by rw [h1] at hga2; exact hga2
        have h2 : n = 2 * a := by omega
        have ha0 : ((a : ℝ)) ≠ 0 := Nat.cast_ne_zero.mpr hpos.ne'
        rw [h2]
        have harg : 2 * π * (a : ℝ) / ((2 * a : ℕ) : ℝ) = π := by
          push_cast
          field_simp
          ring
        rw [harg, Real.sin_pi]
    · intro a ha
      exact Finset.mem_range.2 (Nat.mod_lt _ hn)
    · intro a ha
      rcases Nat.eq_zero_or_pos a with rfl | hpos
      · simp [Nat.mod_self]
      · have haln : a < n := Finset.mem_range.1 ha
        have h1 : (n - a) % n = n - a := Nat.mod_eq_of_lt (by omega)
        simp only [h1]
        have h2 : n - (n - a) = a := by omega
        rw [h2, Nat.mod_eq_of_lt haln]

/-- C4: for every amplitude, offset and positive buffer length, the
sine output's `k`-th sample is `A * sin(2*π*k/length) + offset`, the
sampled phases lie in the right-open interval `[0, 2π)` starting at
phase `0`, and with offset `0` the sample mean is `0` and (for `A ≥ 0`)
every sample's absolute value is at most `A`. -/
theorem sine_wave_properties (m : AnalogOutputMap) (A offset : ℝ)
    (hn : 0 < m.samples_per_channel) (l : List ℝ)
    (hl : generate_waveform m "sine" A offset = .ok l) :
    (∀ k : ℕ, k < m.samples_per_channel →
        l[k]? = some (A * Real.sin (2 * π * (k : ℝ) /
          (m.samples_per_channel : ℝ)) + offset)) ∧
      (∀ k : ℕ, k < m.samples_per_channel →
        0 ≤ 2 * π * (k : ℝ) / (m.samples_per_channel : ℝ) ∧
          2 * π * (k : ℝ) / (m.samples_per_channel : ℝ) < 2 * π) ∧
      (offset = 0 →
        l.sum / (m.samples_per_channel : ℝ) = 0 ∧
          (0 ≤ A → ∀ y ∈ l, |y| ≤ A)) := by
  rw [sine_map_eq] at hl
  obtain rfl : l = (List.range m.samples_per_channel).map
      fun k : ℕ => A * Real.sin (2 * π * (k : ℝ) /
        (m.samples_per_channel : ℝ)) + offset :=
    (Except.ok.injEq _ _).mp hl.symm
  refine ⟨?_, ?_, ?_⟩
  · intro k hk
    rw [List.getElem?_map, List.getElem?_range hk, Option.map_some']
  · intro k hk
    have hnR : (0 : ℝ) < (m.samples_per_channel : ℝ) := by exact_mod_cast hn
    have hkR : ((k : ℝ)) < (m.samples_per_channel : ℝ) := by exact_mod_cast hk
    have hk0 : (0 : ℝ) ≤ (k : ℝ) := Nat.cast_nonneg k
    have hpi : (0 : ℝ) < π := Real.pi_pos
    constructor
    · positivity
    · rw [div_lt_iff₀ hnR]
      nlinarith
  · rintro rfl
    constructor
    · rw [list_map_range_sum]
      have hsum : ∑ k ∈ Finset.range m.samples_per_channel,
          (A * Real.sin (2 * π * (k : ℝ) /
            (m.samples_per_channel : ℝ)) + 0) =
          A * ∑ k ∈ Finset.range m.samples_per_channel,
            Real.sin (2 * π * (k : ℝ) / (m.samples_per_channel : ℝ)) := by
        rw [Finset.mul_sum]
        simp
      rw [hsum, sum_sin_sampled]
      simp
    · intro hA y hy
      obtain ⟨k, _, rfl⟩ := List.mem_map.1 hy
      have h1 : |Real.sin (2 * π * (k : ℝ) /
          (m.samples_per_channel : ℝ))| ≤ 1 := Real.abs_sin_le_one _
      calc |A * Real.sin (2 * π * (k : ℝ) /
              (m.samples_per_channel : ℝ)) + 0|
          = |A| * |Real.sin (2 * π * (k : ℝ) /
              (m.samples_per_channel : ℝ))| := by
            rw [add_zero, abs_mul]
        _ ≤ |A| * 1 := mul_le_mul_of_nonneg_left h1 (abs_nonneg A)
        _ = A := by rw [mul_one, abs_of_nonneg hA]

/-- Evaluation of the sine output on a one-sample buffer: the single
sample sits at phase `0`, so it is `1 * sin 0 + 0 = 0`. -/
theorem sine1_eval :
    generate_waveform ⟨1, 1000, 1⟩ "sine" 1 0 = .ok [0] := by
  rw [sine_map_eq]
  have h1 : (AnalogOutputMap.mk 1 1000 1).samples_per_channel = 1 := rfl
  rw [h1, show List.range 1 = [0] from by decide]
  simp

/-- C4 witness: the one-sample sine buffer `[0]` has mean `0`. -/
theorem sine_wave_properties_witness :
    ([(0 : ℝ)]).sum / ((1 : ℕ) : ℝ) = 0 :=
  ((sine_wave_properties ⟨1, 1000, 1⟩ 1 0 (by norm_num) [0]
      sine1_eval).2.2 rfl).1
